import Mathlib

/-!
Verification of the DataStorageApp "black-box flight recorder":
a capacity-300 ring buffer of sensor samples fed by a periodic sampler,
dumped to a CSV file when a crash-event trigger with nonzero status arrives.

The embedding follows `src/app/src/main.py`:
* a sample is the Python list `temp = [time.time(), distance, accel, speed,
  displacement]`, modelled as `List Int` (scalars abstracted to `Int`);
* `AppState` holds the four cached signal slots and the `storage` deque,
  oldest element first (deque `append` adds at the tail, `popleft` removes
  the head);
* `timer_step` is one iteration of `timer_for_csv`;
* `on_crash_event_received` takes the outcome of `json.loads` (`none` =
  the payload did not parse and the call raised), a flag saying whether the
  CSV write succeeds, and the prior content of the persisted file (mode
  `"w"` truncates, so a successful dump ignores it).
-/

namespace DataStorage

/-- One sampled row, the Python list
`[time.time(), self.distance, self.accel, self.speed, self.displacement]`. -/
abbrev Sample := List Int

/-- The mutable fields of `DataStorageApp`: the four cached signal slots and
the `storage` deque (oldest first). -/
structure AppState where
  distance : Int
  accel : Int
  speed : Int
  displacement : Int
  storage : List Sample
deriving DecidableEq, Repr

/-- Initial state from `DataStorageApp.__init__`: all slots 0, empty deque. -/
def initState : AppState := ⟨0, 0, 0, 0, []⟩

/-- A parsed JSON value, the possible results of `json.loads`. -/
inductive JValue where
  | jnull
  | jbool (b : Bool)
  | jnum (n : Int)
  | jstr (s : String)
  | jobj (fields : List (String × JValue))

/-- Python dict lookup `data["status"]` on the parsed object's fields. -/
def getField : List (String × JValue) → String → Option JValue
  | [], _ => none
  | (k, v) :: rest, key => if k = key then some v else getField rest key

/-- Python's `v == 0` on a JSON-decoded value: true for the number 0 and for
`False` (which Python treats as equal to 0), false for every other value
(strings, lists, dicts, None are never `== 0`). -/
def pyEqZero : JValue → Bool
  | .jnum n => n == 0
  | .jbool b => !b
  | _ => false

/-- The persisted CSV file: one header row then the data rows. -/
structure CsvFile where
  header : List String
  rows : List Sample
deriving DecidableEq, Repr

/-- The header row written at line 104 of `main.py`. -/
def csvHeader : List String := ["timestamp", "distance", "accel", "speed", "displacement"]

/-- `set_response`: the acknowledgment payload
`{"result": {"status": status}}` published on the response topic. -/
def set_response (status : Int) : JValue :=
  .jobj [("result", .jobj [("status", .jnum status)])]

/-- Result of one call of the trigger handler: the state afterwards, the
content of the persisted file afterwards (`none` when a failed write left it
in an undetermined, possibly truncated state), the acknowledgment published
(at most one per call), and whether the call raised an exception. -/
structure TriggerOutcome where
  state : AppState
  file : Option CsvFile
  ack : Option JValue
  raised : Bool

/-- `on_crash_event_received` (lines 95-110 of `main.py`):
`data = json.loads(data_str)` (raises on a malformed payload);
`if data["status"] == 0: return` (raises `KeyError` when the key is missing
and `TypeError` when the parsed value is not a dict); otherwise write the
header row and one row per `storage` entry to the CSV file opened with mode
`"w"`, clear `storage`, and send `set_response(0)`.  An I/O failure during
the write (`ioOk = false`) raises before `self.storage.clear()` is reached. -/
def on_crash_event_received (parsed : Option JValue) (ioOk : Bool)
    (priorFile : Option CsvFile) (s : AppState) : TriggerOutcome :=
  match parsed with
  | none => ⟨s, priorFile, none, true⟩
  | some (.jobj fields) =>
    match getField fields "status" with
    | none => ⟨s, priorFile, none, true⟩
    | some v =>
      if pyEqZero v then ⟨s, priorFile, none, false⟩
      else if ioOk then
        ⟨{ s with storage := [] }, some ⟨csvHeader, s.storage⟩, some (set_response 0), false⟩
      else ⟨s, none, none, true⟩
  | some _ => ⟨s, priorFile, none, true⟩

/-- The ring-buffer append of `timer_for_csv` (lines 89-92):
`if len(self.storage) == 300: self.storage.popleft()` then
`self.storage.append(temp)`. -/
def ringAppend (buf : List α) (x : α) : List α :=
  (if buf.length = 300 then buf.tail else buf) ++ [x]

/-- The sample built at lines 82-88: timestamp first, then the cached
signals in the fixed order distance, accel, speed, displacement. -/
def mkTemp (ts : Int) (s : AppState) : Sample :=
  [ts, s.distance, s.accel, s.speed, s.displacement]

/-- One iteration of the `timer_for_csv` loop at timestamp `ts`. -/
def timer_step (ts : Int) (s : AppState) : AppState :=
  { s with storage := ringAppend s.storage (mkTemp ts s) }

/-- Handler for `Vehicle.ADAS.ObstacleDetection.IsWarning` updates. -/
def on_distance_change (v : Int) (s : AppState) : AppState := { s with distance := v }

/-- Handler for `Vehicle.Acceleration.Longitudinal` updates. -/
def on_accel_change (v : Int) (s : AppState) : AppState := { s with accel := v }

/-- Handler for `Vehicle.Speed` updates. -/
def on_speed_change (v : Int) (s : AppState) : AppState := { s with speed := v }

/-- Handler for `Vehicle.Powertrain.CombustionEngine.Displacement` updates. -/
def on_displacement_change (v : Int) (s : AppState) : AppState := { s with displacement := v }

/-- The read of the retained samples performed by the dump
(`for entry in self.storage` at lines 105-106): returns the samples
oldest-to-newest together with the state after the read. -/
def drain_to_sequence (s : AppState) : List Sample × AppState := (s.storage, s)

/-- Modelled from the spec: the message-bus dispatch that invokes the
trigger handler is not in `src/` (it lives in `velocitas_sdk`).  Spec §7:
"all non-fatal errors are contained within the component that detects them
and reported via logging; none propagate to crash the sampling loop or the
subscription listeners" — an exception raised by the handler does not
terminate the process. -/
def handlerRaiseFatal : Bool := false

/-! ### Interleavings of sampler appends and dumps

Everything in `main.py` runs on one asyncio event loop and neither the body
of `timer_for_csv` nor the dump path of `on_crash_event_received` awaits
between touching `storage`, so an append and a whole dump (snapshot + clear)
are each atomic steps; an interleaving is a sequence of such steps. -/

/-- An atomic step of an interleaving: a sampler append or a triggered dump. -/
inductive Op where
  | append (x : Sample)
  | dump

/-- State of a run: the live buffer and the snapshots dumped so far. -/
structure RunState where
  buf : List Sample
  files : List (List Sample)

/-- Effect of one atomic step. -/
def runOp (rs : RunState) : Op → RunState
  | .append x => ⟨ringAppend rs.buf x, rs.files⟩
  | .dump => ⟨[], rs.files ++ [rs.buf]⟩

/-- Run an interleaving from the initial empty state. -/
def run (ops : List Op) : RunState := ops.foldl runOp ⟨[], []⟩

/-- The samples accounted for after a run: everything in a dumped snapshot
plus everything still in the buffer. -/
def accounted (rs : RunState) : List Sample := rs.files.flatten ++ rs.buf

/-- The samples appended during an interleaving, in order. -/
def appendsOf (ops : List Op) : List Sample :=
  ops.filterMap (fun op => match op with | .append x => some x | .dump => none)

/-! ### Ring-buffer lemmas -/

theorem ringAppend_length_le (buf : List α) (x : α) (h : buf.length ≤ 300) :
    (ringAppend buf x).length ≤ 300 := by
  unfold ringAppend
  by_cases hf : buf.length = 300
  · rw [if_pos hf]
    cases buf with
    | nil => simp at hf
    | cons b bs =>
      simp only [List.length_cons] at hf
      simp only [List.tail_cons, List.length_append, List.length_cons, List.length_nil]
      omega
  · rw [if_neg hf]
    simp only [List.length_append, List.length_cons, List.length_nil]
    omega

/-- Folding `ringAppend` over `xs` from a buffer within capacity keeps the
last 300 elements of `buf ++ xs`. -/
theorem foldl_ringAppend_eq_drop (xs : List α) : ∀ (buf : List α), buf.length ≤ 300 →
    xs.foldl ringAppend buf = (buf ++ xs).drop (buf.length + xs.length - 300) := by
  induction xs with
  | nil =>
    intro buf h
    simp only [List.foldl_nil, List.append_nil, List.length_nil, Nat.add_zero]
    rw [Nat.sub_eq_zero_of_le h, List.drop_zero]
  | cons x xs ih =>
    intro buf h
    by_cases hf : buf.length = 300
    · cases buf with
      | nil => simp at hf
      | cons b bs =>
        simp only [List.length_cons] at hf
        have hstep : ringAppend (b :: bs) x = bs ++ [x] := by
          simp [ringAppend, hf]
        have hlen : (bs ++ [x]).length ≤ 300 := by
          simp only [List.length_append, List.length_cons, List.length_nil]
          omega
        rw [List.foldl_cons, hstep, ih _ hlen]
        have hidx1 : (bs ++ [x]).length + xs.length - 300 = xs.length := by
          simp only [List.length_append, List.length_cons, List.length_nil]
          omega
        have hidx2 : (b :: bs).length + (x :: xs).length - 300 = xs.length + 1 := by
          simp only [List.length_cons]
          omega
        rw [hidx1, hidx2]
        simp only [List.cons_append, List.drop_succ_cons, List.append_assoc,
          List.singleton_append, List.nil_append]
    · have hlt : buf.length < 300 := Nat.lt_of_le_of_ne h hf
      have hstep : ringAppend buf x = buf ++ [x] := by
        simp [ringAppend, hf]
      have hlen : (buf ++ [x]).length ≤ 300 := by
        simp only [List.length_append, List.length_cons, List.length_nil]
        omega
      rw [List.foldl_cons, hstep, ih _ hlen]
      have hidx3 : (buf ++ [x]).length + xs.length - 300 =
          buf.length + (x :: xs).length - 300 := by
        simp only [List.length_append, List.length_cons, List.length_nil]
        omega
      rw [hidx3, List.append_assoc, List.singleton_append]

/-! ### Claim theorems -/

/-- C1: every sequence of appends into the capacity-300 ring buffer keeps
the length at most 300 (every intermediate point is itself such a sequence),
and after at least 300 appends the length is exactly 300 and the contents
are the 300 most-recently appended samples in append order. -/
theorem ringBuffer_bounded_and_window (xs : List Sample) :
    (xs.foldl ringAppend ([] : List Sample)).length ≤ 300 ∧
    (300 ≤ xs.length →
      (xs.foldl ringAppend ([] : List Sample)).length = 300 ∧
      xs.foldl ringAppend ([] : List Sample) = xs.drop (xs.length - 300)) := by
  have h := foldl_ringAppend_eq_drop xs ([] : List Sample) (by simp)
  simp only [List.nil_append, List.length_nil, Nat.zero_add] at h
  rw [h]
  refine ⟨?_, fun hge => ⟨?_, rfl⟩⟩
  · rw [List.length_drop]; omega
  · rw [List.length_drop]; omega

theorem ringBuffer_bounded_and_window_witness :
    ((List.replicate 305 ([] : Sample)).foldl ringAppend []).length = 300 :=
  ((ringBuffer_bounded_and_window (List.replicate 305 ([] : Sample))).2
    (by rw [List.length_replicate]; omega)).1

/-- C8: at most 300 appends starting from the empty buffer evict nothing:
all appended samples are retained, in order. -/
theorem appends_upto_capacity_retained (xs : List Sample) (h : xs.length ≤ 300) :
    xs.foldl ringAppend ([] : List Sample) = xs := by
  have hh := foldl_ringAppend_eq_drop xs ([] : List Sample) (by simp)
  simp only [List.nil_append, List.length_nil, Nat.zero_add] at hh
  rw [hh, Nat.sub_eq_zero_of_le h, List.drop_zero]

theorem appends_upto_capacity_retained_witness :
    ([[1], [2], [3]] : List Sample).foldl ringAppend [] = [[1], [2], [3]] :=
  appends_upto_capacity_retained _ (by decide)

/-- C2: a trigger whose `status` is a nonzero number, on a buffer holding at
least one sample, writes the CSV file as exactly the header row followed by
one row per retained sample oldest-to-newest, empties the buffer, and sends
exactly one acknowledgment `{"result": {"status": 0}}`. -/
theorem trigger_nonzero_dumps (s : AppState) (fields : List (String × JValue)) (n : Int)
    (priorFile : Option CsvFile)
    (hst : getField fields "status" = some (.jnum n)) (hn : n ≠ 0)
    (_hne : s.storage ≠ []) :
    (on_crash_event_received (some (.jobj fields)) true priorFile s).file =
      some ⟨csvHeader, s.storage⟩ ∧
    (on_crash_event_received (some (.jobj fields)) true priorFile s).state.storage = [] ∧
    (on_crash_event_received (some (.jobj fields)) true priorFile s).ack =
      some (set_response 0) ∧
    (on_crash_event_received (some (.jobj fields)) true priorFile s).raised = false := by
  have hz : pyEqZero (.jnum n) = false := by simp [pyEqZero, hn]
  simp [on_crash_event_received, hst, hz]

theorem trigger_nonzero_dumps_witness :
    (on_crash_event_received (some (.jobj [("status", .jnum 1)])) true none
        ⟨0, 0, 0, 0, [[5, 0, 0, 0, 0]]⟩).state.storage = [] ∧
    (on_crash_event_received (some (.jobj [("status", .jnum 1)])) true none
        ⟨0, 0, 0, 0, [[5, 0, 0, 0, 0]]⟩).ack = some (set_response 0) := by
  have h := trigger_nonzero_dumps ⟨0, 0, 0, 0, [[5, 0, 0, 0, 0]]⟩ [("status", .jnum 1)] 1 none
    (by rfl) (by decide) (by decide)
  exact ⟨h.2.1, h.2.2.1⟩

/-- C3: a trigger whose `status` equals 0 is a complete no-op: the state is
unchanged, the persisted file keeps its prior content, no acknowledgment is
sent, and nothing is raised. -/
theorem trigger_zero_noop (s : AppState) (fields : List (String × JValue)) (ioOk : Bool)
    (priorFile : Option CsvFile)
    (hst : getField fields "status" = some (.jnum 0)) :
    on_crash_event_received (some (.jobj fields)) ioOk priorFile s =
      ⟨s, priorFile, none, false⟩ := by
  simp [on_crash_event_received, hst, pyEqZero]

theorem trigger_zero_noop_witness :
    on_crash_event_received (some (.jobj [("status", .jnum 0)])) true none initState =
      ⟨initState, none, none, false⟩ :=
  trigger_zero_noop initState [("status", .jnum 0)] true none (by rfl)

/-- C4: when the CSV write of a nonzero-status dump fails, `storage.clear()`
is never reached, so the buffer (and the whole state) keeps its pre-dump
contents, no acknowledgment is sent, and the raised exception is not fatal
to the process (spec-modelled dispatch, see `handlerRaiseFatal`). -/
theorem dump_write_failure_preserves_buffer (s : AppState) (fields : List (String × JValue))
    (n : Int) (priorFile : Option CsvFile)
    (hst : getField fields "status" = some (.jnum n)) (hn : n ≠ 0) :
    (on_crash_event_received (some (.jobj fields)) false priorFile s).state = s ∧
    (on_crash_event_received (some (.jobj fields)) false priorFile s).ack = none ∧
    (on_crash_event_received (some (.jobj fields)) false priorFile s).raised = true ∧
    handlerRaiseFatal = false := by
  have hz : pyEqZero (.jnum n) = false := by simp [pyEqZero, hn]
  simp [on_crash_event_received, hst, hz, handlerRaiseFatal]

theorem dump_write_failure_preserves_buffer_witness :
    (on_crash_event_received (some (.jobj [("status", .jnum 1)])) false none
        ⟨0, 0, 0, 0, [[9, 1, 2, 3, 4]]⟩).state = ⟨0, 0, 0, 0, [[9, 1, 2, 3, 4]]⟩ :=
  (dump_write_failure_preserves_buffer ⟨0, 0, 0, 0, [[9, 1, 2, 3, 4]]⟩
    [("status", .jnum 1)] 1 none (by rfl) (by decide)).1

/-- C7: a successful dump's file content is independent of the prior file
content (mode `"w"` fully rewrites), equals the fixed header row followed by
the retained rows oldest-to-newest, the header names timestamp then the
signals in a fixed order, and every sampled row lists its fields in that
same order: timestamp first, then distance, accel, speed, displacement. -/
theorem dump_rewrites_file_with_schema (s : AppState) (fields : List (String × JValue))
    (n : Int) (prior1 prior2 : Option CsvFile)
    (hst : getField fields "status" = some (.jnum n)) (hn : n ≠ 0) :
    (on_crash_event_received (some (.jobj fields)) true prior1 s).file =
      (on_crash_event_received (some (.jobj fields)) true prior2 s).file ∧
    (on_crash_event_received (some (.jobj fields)) true prior1 s).file =
      some ⟨csvHeader, s.storage⟩ ∧
    csvHeader = ["timestamp", "distance", "accel", "speed", "displacement"] ∧
    ∀ (ts : Int) (c : AppState),
      mkTemp ts c = [ts, c.distance, c.accel, c.speed, c.displacement] := by
  have hz : pyEqZero (.jnum n) = false := by simp [pyEqZero, hn]
  refine ⟨?_, ?_, rfl, fun ts c => rfl⟩ <;> simp [on_crash_event_received, hst, hz]

theorem dump_rewrites_file_with_schema_witness :
    (on_crash_event_received (some (.jobj [("status", .jnum 7)])) true
        (some ⟨csvHeader, [[1, 1, 1, 1, 1]]⟩) initState).file =
      some ⟨csvHeader, ([] : List Sample)⟩ :=
  (dump_rewrites_file_with_schema initState [("status", .jnum 7)] 7
    (some ⟨csvHeader, [[1, 1, 1, 1, 1]]⟩) none (by rfl) (by decide)).2.1

/-- C9: the dump's read of the retained samples does not mutate the buffer:
reading twice with nothing in between yields identical oldest-to-newest
sequences and leaves the state exactly as it was, and the rows a successful
dump writes are exactly that read of the pre-dump state. -/
theorem drain_to_sequence_nondestructive (s : AppState) :
    (drain_to_sequence ((drain_to_sequence s).2)).1 = (drain_to_sequence s).1 ∧
    (drain_to_sequence ((drain_to_sequence s).2)).2 = s ∧
    ∀ (fields : List (String × JValue)) (n : Int) (priorFile : Option CsvFile),
      getField fields "status" = some (.jnum n) → n ≠ 0 →
      (on_crash_event_received (some (.jobj fields)) true priorFile s).file =
        some ⟨csvHeader, (drain_to_sequence s).1⟩ := by
  refine ⟨rfl, rfl, ?_⟩
  intro fields n priorFile hst hn
  have hz : pyEqZero (.jnum n) = false := by simp [pyEqZero, hn]
  simp [on_crash_event_received, hst, hz, drain_to_sequence]

theorem drain_to_sequence_nondestructive_witness :
    (on_crash_event_received (some (.jobj [("status", .jnum 2)])) true none initState).file =
      some ⟨csvHeader, (drain_to_sequence initState).1⟩ :=
  (drain_to_sequence_nondestructive initState).2.2 [("status", .jnum 2)] 2 none
    (by rfl) (by decide)

/-- C10: each signal-update handler writes only its own cached slot: the
other three slots and the ring buffer are untouched. -/
theorem signal_handlers_frame (s : AppState) (v : Int) :
    (on_distance_change v s).distance = v ∧
    (on_distance_change v s).accel = s.accel ∧
    (on_distance_change v s).speed = s.speed ∧
    (on_distance_change v s).displacement = s.displacement ∧
    (on_distance_change v s).storage = s.storage ∧
    (on_accel_change v s).accel = v ∧
    (on_accel_change v s).distance = s.distance ∧
    (on_accel_change v s).speed = s.speed ∧
    (on_accel_change v s).displacement = s.displacement ∧
    (on_accel_change v s).storage = s.storage ∧
    (on_speed_change v s).speed = v ∧
    (on_speed_change v s).distance = s.distance ∧
    (on_speed_change v s).accel = s.accel ∧
    (on_speed_change v s).displacement = s.displacement ∧
    (on_speed_change v s).storage = s.storage ∧
    (on_displacement_change v s).displacement = v ∧
    (on_displacement_change v s).distance = s.distance ∧
    (on_displacement_change v s).accel = s.accel ∧
    (on_displacement_change v s).speed = s.speed ∧
    (on_displacement_change v s).storage = s.storage := by
  simp [on_distance_change, on_accel_change, on_speed_change, on_displacement_change]

/-- C5 counterexample: the payload `{"status": "oops"}` has a status field
that is not a numeric value, yet the handler is not a no-op: Python's
`"oops" == 0` is `False`, so the nonzero branch runs a full dump and clears
the buffer — the ring buffer does not stay unchanged. -/
theorem string_status_triggers_dump :
    (on_crash_event_received (some (.jobj [("status", .jstr "oops")])) true none
        ⟨0, 0, 0, 0, [[7, 0, 0, 0, 0]]⟩).state.storage ≠ [[7, 0, 0, 0, 0]] := by
  decide

/-- C5 amended: a payload that does not parse, parses to a non-object, or
parses to an object without a `status` key makes the handler raise before
touching any state: the buffer and the persisted file are unchanged and no
acknowledgment is sent.  (A payload whose status key holds a non-numeric
value is instead treated as nonzero and triggers a full dump.) -/
theorem malformed_payload_raises_noop (parsed : Option JValue) (ioOk : Bool)
    (priorFile : Option CsvFile) (s : AppState)
    (h : parsed = none ∨
      (∃ fields, parsed = some (.jobj fields) ∧ getField fields "status" = none) ∨
      (∃ v, parsed = some v ∧ ∀ fields, v ≠ .jobj fields)) :
    on_crash_event_received parsed ioOk priorFile s = ⟨s, priorFile, none, true⟩ := by
  rcases h with h | ⟨fields, hp, hst⟩ | ⟨v, hp, hv⟩
  · subst h; rfl
  · subst hp; simp [on_crash_event_received, hst]
  · subst hp
    cases v with
    | jobj fields => exact absurd rfl (hv fields)
    | jnull => rfl
    | jbool b => rfl
    | jnum n => rfl
    | jstr str => rfl

theorem malformed_payload_raises_noop_witness :
    on_crash_event_received none true none initState = ⟨initState, none, none, true⟩ :=
  malformed_payload_raises_noop none true none initState (Or.inl rfl)

/-! ### C6: accounting of samples across interleavings -/

theorem foldl_runOp_appends (xs : List Sample) : ∀ rs : RunState,
    (xs.map Op.append).foldl runOp rs = ⟨xs.foldl ringAppend rs.buf, rs.files⟩ := by
  induction xs with
  | nil => intro rs; rfl
  | cons x xs ih =>
    intro rs
    rw [List.map_cons, List.foldl_cons, List.foldl_cons]
    exact ih _

theorem accounted_foldl_sublist (ops : List Op) : ∀ (rs : RunState) (pre : List Sample),
    List.Sublist (accounted rs) pre →
    List.Sublist (accounted (ops.foldl runOp rs)) (pre ++ appendsOf ops) := by
  induction ops with
  | nil =>
    intro rs pre h
    simpa [appendsOf] using h
  | cons op ops ih =>
    intro rs pre h
    cases op with
    | dump =>
      rw [List.foldl_cons]
      have h2 : accounted (runOp rs Op.dump) = accounted rs := by
        simp [accounted, runOp, List.flatten_append]
      have h3 := ih (runOp rs Op.dump) pre (h2 ▸ h)
      simpa [appendsOf] using h3
    | append x =>
      rw [List.foldl_cons]
      have htail : List.Sublist (if rs.buf.length = 300 then rs.buf.tail else rs.buf) rs.buf := by
        split
        · exact List.tail_sublist rs.buf
        · exact List.Sublist.refl rs.buf
      have heq : accounted (runOp rs (Op.append x)) =
          (rs.files.flatten ++ (if rs.buf.length = 300 then rs.buf.tail else rs.buf)) ++ [x] := by
        simp [accounted, runOp, ringAppend, List.append_assoc]
      have h1 : List.Sublist
          (rs.files.flatten ++ (if rs.buf.length = 300 then rs.buf.tail else rs.buf))
          (accounted rs) :=
        (List.Sublist.refl rs.files.flatten).append htail
      have hsub : List.Sublist (accounted (runOp rs (Op.append x))) (pre ++ [x]) := by
        rw [heq]
        exact ((h1.trans h).append (List.Sublist.refl [x]))
      have h4 := ih (runOp rs (Op.append x)) (pre ++ [x]) hsub
      simpa [appendsOf, List.append_assoc] using h4

/-- The 305 samples appended in the C6 counterexample. -/
def xs6 : List Sample := (List.range 305).map (fun i : Nat => [(i : Int)])

/-- The interleaving used in the C6 counterexample: 305 appends of the
samples `[0], [1], ..., [304]` into the capacity-300 buffer, then one dump. -/
def ops6 : List Op := xs6.map Op.append ++ [Op.dump]

theorem appendsOf_append (a b : List Op) :
    appendsOf (a ++ b) = appendsOf a ++ appendsOf b := by
  simp [appendsOf, List.filterMap_append]

theorem appendsOf_map_append (xs : List Sample) : appendsOf (xs.map Op.append) = xs := by
  induction xs with
  | nil => rfl
  | cons x xs ih =>
    simp only [appendsOf, List.map_cons, List.filterMap_cons] at *
    rw [ih]

theorem appendsOf_ops6 : appendsOf ops6 = xs6 := by
  unfold ops6
  rw [appendsOf_append, appendsOf_map_append,
    show appendsOf [Op.dump] = [] from rfl, List.append_nil]

theorem run_ops6 : run ops6 = ⟨[], [xs6.drop 5]⟩ := by
  unfold run ops6
  rw [List.foldl_append, foldl_runOp_appends]
  have hfold : xs6.foldl ringAppend ([] : List Sample) = xs6.drop 5 := by
    have h := foldl_ringAppend_eq_drop xs6 ([] : List Sample) (by decide)
    rw [h, List.nil_append, List.length_nil]
    have hxs : xs6.length = 305 := by
      rw [xs6, List.length_map, List.length_range]
    rw [hxs]
  rw [hfold]
  simp only [List.foldl_cons, List.foldl_nil, runOp]
  rw [List.nil_append]

/-- C6 counterexample: sample `[0]` is appended during the interleaving
`ops6`, but after the dump it appears in neither the dump file nor the
post-dump buffer — it was evicted by the 301st append before the snapshot
was taken, so it is lost, contradicting "every logical sample appears
exactly once in either the dump file or the post-dump buffer". -/
theorem concurrent_append_sample_lost :
    [(0 : Int)] ∈ appendsOf ops6 ∧ [(0 : Int)] ∉ accounted (run ops6) := by
  constructor
  · rw [appendsOf_ops6]
    have h0 : (0 : Nat) ∈ List.range 305 := List.mem_range.mpr (by norm_num)
    exact List.mem_map_of_mem _ h0
  · rw [run_ops6]
    have hacc : accounted ⟨[], [xs6.drop 5]⟩ = xs6.drop 5 := by
      simp [accounted]
    rw [hacc]
    have hswap : xs6.drop 5 = ((List.range 305).drop 5).map (fun i : Nat => [(i : Int)]) := by
      rw [xs6, ← List.map_drop]
    rw [hswap]
    intro hmem
    obtain ⟨a, ha, heq⟩ := List.mem_map.mp hmem
    have ha0 : a = 0 := by simpa using heq
    subst ha0
    have hnot : (0 : Nat) ∉ (List.range 305).drop 5 := by decide
    exact hnot ha

/-- C6 amended: across every interleaving of sampler appends and dumps, no
sample is duplicated: the samples accounted for (all dump files plus the
live buffer) always form a subsequence, in order, of the appended samples —
gaps coming only from ring-buffer eviction at capacity.  The dump step
itself neither loses nor duplicates anything: it leaves the accounted
samples exactly unchanged, moving the buffer into the file. -/
theorem interleaving_accounting (ops : List Op) :
    List.Sublist (accounted (run ops)) (appendsOf ops) ∧
    ∀ rs : RunState, accounted (runOp rs Op.dump) = accounted rs := by
  constructor
  · have h := accounted_foldl_sublist ops ⟨[], []⟩ [] (by simp [accounted])
    simpa using h
  · intro rs
    simp [accounted, runOp, List.flatten_append]

end DataStorage
